import Mathlib

/-!
# Verification of the wan-22-i2v job-queue core

Shallow embedding of the repository's job-queue core:

* `concurrency_manager.py` — the admission-control ledger (`ConcurrencyManager`),
* `job_queue.py` — the `Job` record, its SQLite persistence (`_save_job` /
  `_load_job`), `cancel_job`, the worker-loop job selection query, and
  `_process_job`,
* `api_router.py` / `auth_service.py` — the admin stats endpoint.

Python `int` is modelled by `Int`, strings by `String`, dictionaries by
association lists, `datetime` values by `Nat` tick counts (ISO-format
serialisation round-trips exactly in the source, so the timestamp columns are
modelled as storing the value itself).  Fallible code returns `Except` /
`Option`.  External collaborators (generation client, cloud storage) are
modelled as environment records following the collaborator contracts.
-/

namespace Wan22

/-! ## Concurrency manager (`concurrency_manager.py`)

`ConcurrencyManager._initialize` sets `global_limit = 5`, `active_count = 0`
and an empty `active_user_jobs` dict (user id → job id).  The dict is
modelled by an association list; reachable states keep the keys nodup. -/

structure Ledger where
  global_limit : Int
  active_count : Int
  active_user_jobs : List (String × String)
deriving Repr, DecidableEq


/-- Dictionary lookup: `d[u]` / `u in d` on `active_user_jobs`. -/
def lkp (u : String) : List (String × String) → Option String
  | [] => none
  | (k, v) :: rest => if k = u then some v else lkp u rest


/-- Dictionary deletion `del d[u]` (removes every binding of `u`). -/
def eraseUser (u : String) : List (String × String) → List (String × String)
  | [] => []
  | (k, v) :: rest => if k = u then eraseUser u rest else (k, v) :: eraseUser u rest


/-- `ConcurrencyManager._initialize`: limit 5, count 0, empty mapping. -/
def initLedger : Ledger :=
  { global_limit := 5, active_count := 0, active_user_jobs := [] }


/-- `ConcurrencyManager.acquire(user_id, job_id)`: denies when the user already
holds a slot or the global limit is reached; otherwise increments the count and
records the mapping. -/
def acquire (l : Ledger) (u j : String) : Ledger × Bool :=
  if (lkp u l.active_user_jobs).isSome then (l, false)
  else if l.global_limit ≤ l.active_count then (l, false)
  else ({ l with active_count := l.active_count + 1,
                 active_user_jobs := (u, j) :: l.active_user_jobs }, true)


/-- `ConcurrencyManager.release(user_id, job_id)`: removes the mapping and
decrements the count only when the recorded job for the user equals `j`;
the decrement is clamped at zero exactly as in the source.  The source's
nested test (`user_id in d` followed by `d[user_id] == job_id`) is exactly
the condition `lkp u … = some j`. -/
def release (l : Ledger) (u j : String) : Ledger :=
  if lkp u l.active_user_jobs = some j then
    let c := l.active_count - 1
    { l with active_count := if c < 0 then 0 else c,
             active_user_jobs := eraseUser u l.active_user_jobs }
  else l


/-- `ConcurrencyManager.check_limits(user_id)`. -/
def check_limits (l : Ledger) (u : String) : Bool :=
  if (lkp u l.active_user_jobs).isSome then false
  else if l.global_limit ≤ l.active_count then false
  else true


structure LedgerStatus where
  global_active : Int
  global_limit : Int
  active_users : List String
deriving Repr, DecidableEq


/-- `ConcurrencyManager.get_status()`. -/
def get_status (l : Ledger) : LedgerStatus :=
  { global_active := l.active_count,
    global_limit := l.global_limit,
    active_users := l.active_user_jobs.map Prod.fst }


/-- One observable call on the ledger. -/
inductive Step where
  | acq (u j : String)
  | rel (u j : String)
deriving Repr, DecidableEq


def applyStep (l : Ledger) : Step → Ledger
  | .acq u j => (acquire l u j).1
  | .rel u j => release l u j


def runSteps (l : Ledger) : List Step → Ledger
  | [] => l
  | s :: rest => runSteps (applyStep l s) rest


def keys (m : List (String × String)) : List String := m.map Prod.fst


/-- The ledger invariant stated in the spec: nodup keys, count = size,
count never negative, count never above the global limit. -/
def LedgerInv (l : Ledger) : Prop :=
  (keys l.active_user_jobs).Nodup ∧
  l.active_count = (l.active_user_jobs.length : Int) ∧
  0 ≤ l.active_count ∧
  l.active_count ≤ l.global_limit


instance (l : Ledger) : Decidable (LedgerInv l) := by
  unfold LedgerInv; infer_instance


/-! ## Job records and persistence (`job_queue.py`)

`JobStatus` and the `Job` dataclass.  Timestamps are tick counts (`Nat`);
`datetime.isoformat` / `fromisoformat` round-trip exactly, so the timestamp
columns store the value itself.  JSON scalar values are modelled by `JVal`
(`json.dumps` / `json.loads` round-trip exactly on these maps, so a
serialised cell is modelled by the map it denotes; a `NULL` cell is `none`;
note that `json.dumps` of any map, the empty one included, is a non-empty —
hence truthy — string). -/

inductive JobStatus where
  | queued
  | processing
  | completed
  | failed
  | cancelled
deriving Repr, DecidableEq


/-- `JobStatus(...).value` -/
def JobStatus.value : JobStatus → String
  | .queued => "queued"
  | .processing => "processing"
  | .completed => "completed"
  | .failed => "failed"
  | .cancelled => "cancelled"


/-- `JobStatus(s)` — the enum constructor lookup performed by `_load_job`
(raises on an unknown string; modelled by `none`). -/
def JobStatus.parse (s : String) : Option JobStatus :=
  if s = "queued" then some .queued
  else if s = "processing" then some .processing
  else if s = "completed" then some .completed
  else if s = "failed" then some .failed
  else if s = "cancelled" then some .cancelled
  else none


inductive JVal where
  | s (v : String)
  | n (v : Int)
deriving Repr, DecidableEq


abbrev JMap := List (String × JVal)


/-- Python truthiness of an optional dict (`None` and `{}` are falsy). -/
def truthyMap : Option JMap → Bool
  | none => false
  | some [] => false
  | some (_ :: _) => true


/-- Python truthiness of an optional string (`None` and `""` are falsy). -/
def truthyStr : Option String → Bool
  | none => false
  | some s => if s = "" then false else true


/-- The `Job` dataclass of `job_queue.py`. -/
structure Job where
  job_id : String
  user_id : String
  model : String
  status : JobStatus
  created_at : Nat
  updated_at : Nat
  input_image_url : Option String := none
  input_image_path : Option String := none
  prompt : String := ""
  negative_prompt : String := ""
  parameters : Option JMap := none
  result_url : Option String := none
  error_message : Option String := none
  metrics : Option JMap := none
deriving Repr, DecidableEq


/-- One row of the SQLite `jobs` table. -/
structure Row where
  job_id : String
  user_id : String
  model : String
  status : String
  created_at : Nat
  updated_at : Nat
  input_image_url : Option String
  input_image_path : Option String
  prompt : String
  negative_prompt : String
  parameters : Option JMap
  result_url : Option String
  error_message : Option String
  metrics : Option JMap
deriving Repr, DecidableEq


/-- The row written by `_save_job`: status serialised through `.value`, the
`parameters`/`metrics` cells hold `json.dumps(x) if x else None` — i.e. `NULL`
unless the dict is truthy. -/
def encodeJob (j : Job) : Row :=
  { job_id := j.job_id, user_id := j.user_id, model := j.model,
    status := j.status.value,
    created_at := j.created_at, updated_at := j.updated_at,
    input_image_url := j.input_image_url, input_image_path := j.input_image_path,
    prompt := j.prompt, negative_prompt := j.negative_prompt,
    parameters := if truthyMap j.parameters then j.parameters else none,
    result_url := j.result_url, error_message := j.error_message,
    metrics := if truthyMap j.metrics then j.metrics else none }


/-- The reconstruction performed by `_load_job`: status through `JobStatus(s)`,
the `parameters`/`metrics` cells through `json.loads(cell) if cell else None`
(a stored serialised map is always a truthy string, so this is the identity on
the cell). -/
def decodeRow (r : Row) : Option Job :=
  (JobStatus.parse r.status).map fun st =>
    { job_id := r.job_id, user_id := r.user_id, model := r.model, status := st,
      created_at := r.created_at, updated_at := r.updated_at,
      input_image_url := r.input_image_url, input_image_path := r.input_image_path,
      prompt := r.prompt, negative_prompt := r.negative_prompt,
      parameters := r.parameters,
      result_url := r.result_url, error_message := r.error_message,
      metrics := r.metrics }


/-- The `jobs` table, rows in rowid (scan) order. -/
abbrev DB := List Row


/-- Deletion of every row with the given primary key. -/
def dbErase (id : String) : DB → DB
  | [] => []
  | r :: rest => if r.job_id = id then dbErase id rest else r :: dbErase id rest


/-- SQLite `INSERT OR REPLACE`: conflicting rows are deleted and the new row
is inserted with a fresh rowid (end of scan order). -/
def dbInsert (db : DB) (r : Row) : DB := dbErase r.job_id db ++ [r]


/-- `SELECT * FROM jobs WHERE job_id = ?` + `fetchone()`. -/
def dbFind : DB → String → Option Row
  | [], _ => none
  | r :: rest, id => if r.job_id = id then some r else dbFind rest id


/-- `JobQueue._save_job`. -/
def saveJob (db : DB) (j : Job) : DB := dbInsert db (encodeJob j)


/-- `JobQueue._load_job`. -/
def loadJob (db : DB) (id : String) : Option Job := (dbFind db id).bind decodeRow


/-- `JobQueue.cancel_job`: load; missing job or non-QUEUED status returns
`false` without touching the table; a QUEUED job is moved to CANCELLED with a
fresh `updated_at` and persisted. -/
def cancel_job (db : DB) (id : String) (now : Nat) : DB × Bool :=
  match loadJob db id with
  | none => (db, false)
  | some j =>
      if j.status = JobStatus.queued then
        (saveJob db { j with status := JobStatus.cancelled, updated_at := now }, true)
      else (db, false)


/-- `WHERE status = 'queued'` filter of the worker-loop query. -/
def statusFilter : DB → List Row
  | [] => []
  | r :: rest => if r.status = "queued" then r :: statusFilter rest else statusFilter rest


def insertByCreated (r : Row) : List Row → List Row
  | [] => [r]
  | x :: rest =>
      if r.created_at ≤ x.created_at then r :: x :: rest
      else x :: insertByCreated r rest


/-- `ORDER BY created_at` (ascending). -/
def sortByCreated : List Row → List Row
  | [] => []
  | r :: rest => insertByCreated r (sortByCreated rest)


/-- The worker-loop selection query
`SELECT * FROM jobs WHERE status = 'queued' ORDER BY created_at LIMIT n`. -/
def listOldestQueued (db : DB) (limit : Nat) : List Row :=
  (sortByCreated (statusFilter db)).take limit


/-- Concrete queued job used by witnesses (created later than `wJobW3`). -/
def wJobQ1 : Job :=
  { job_id := "jq1", user_id := "u2", model := "wan2.1",
    status := JobStatus.queued, created_at := 5, updated_at := 5,
    input_image_path := some "/tmp/y.jpg", prompt := "q" }


/-- Concrete queued job used by witnesses (the oldest one). -/
def wJobW3 : Job :=
  { job_id := "jw3", user_id := "u1", model := "wan2.1",
    status := JobStatus.queued, created_at := 2, updated_at := 2,
    input_image_path := some "/tmp/x.jpg", prompt := "p" }


/-- Concrete queued job used by the C4 witness. -/
def wJobJW : Job :=
  { job_id := "jw", user_id := "u1", model := "wan2.1",
    status := JobStatus.queued, created_at := 1, updated_at := 1,
    input_image_path := some "/tmp/x.jpg", prompt := "p" }


/-- A `Job` whose `parameters` is the empty map: `_save_job` stores `NULL`
for it (Python truthiness), so reloading yields `parameters = None`. -/
def jobEmptyParams : Job :=
  { job_id := "j-c6", user_id := "u1", model := "wan2.1",
    status := JobStatus.queued, created_at := 3, updated_at := 4,
    input_image_path := some "/tmp/a.jpg", prompt := "p",
    parameters := some [], metrics := none }


/-- A concrete job carrying non-empty parameter and metrics maps. -/
def wJobMaps : Job :=
  { jobEmptyParams with
    job_id := "j-c6w",
    parameters := some [("cfg", JVal.n 7)],
    metrics := some [("generation_time", JVal.n 12)] }


/-! ## The worker's job-processing path (`JobQueue._process_job`)

External collaborators are modelled by an environment record of call
outcomes, following the §6 collaborator contracts of the spec.  The
`ConcurrencyManager` singleton is threaded through as a `Ledger` so that the
theorems can observe that `_process_job` never touches it — the source
contains no `acquire`/`release` call anywhere in the worker path. -/

/-- The result dict returned by the generation client
(`{status, output?, error?, metrics?}` per the collaborator contract). -/
structure GenResult where
  status : String
  output : Option String
  error : Option String
  metrics : Option JMap
deriving Repr, DecidableEq


instance {ε α : Type} [DecidableEq ε] [DecidableEq α] :
    DecidableEq (Except ε α) := fun a b =>
  match a, b with
  | .error x, .error y =>
      if h : x = y then .isTrue (by rw [h])
      else .isFalse (by intro hc; injection hc; exact h (by assumption))
  | .error _, .ok _ => .isFalse (by intro hc; exact Except.noConfusion hc)
  | .ok _, .error _ => .isFalse (by intro hc; exact Except.noConfusion hc)
  | .ok x, .ok y =>
      if h : x = y then .isTrue (by rw [h])
      else .isFalse (by intro hc; injection hc; exact h (by assumption))


/-- Outcomes of the external calls made during one `_process_job` run:
`getClient` is `VideoClientFactory.get_client` (raises on an unknown model);
`download` is the value returned by `_download_from_gcs` (that helper
catches its own exceptions and returns `None` on failure); `generate` is the
synchronous generation call; `upload` is `_upload_video_to_gcs` (URL or
re-raised exception); `genTime` the measured generation duration;
`tempExists` the `os.path.exists` check on the resolved input file;
`now1`/`now2` the two `datetime.now()` readings. -/
structure Env where
  getClient : Except String Unit
  download : Option String
  generate : Except String GenResult
  upload : Except String String
  genTime : Int
  tempExists : Bool
  now1 : Nat
  now2 : Nat
deriving Repr, DecidableEq


/-- Dict lookup in a JSON map. -/
def jlookup (k : String) : JMap → Option JVal
  | [] => none
  | (k', v) :: rest => if k' = k then some v else jlookup k rest


/-- The metrics map built on the COMPLETED path:
`generation_time`, `spin_up_time` (`result.get("metrics", {}).get(..., 0)`)
and `total_time`. -/
def mkMetrics (env : Env) (res : GenResult) : JMap :=
  [("generation_time", JVal.n env.genTime),
   ("spin_up_time", (jlookup "spin_up_time" (res.metrics.getD [])).getD (JVal.n 0)),
   ("total_time",
    (jlookup "generation_time" (res.metrics.getD [])).getD (JVal.n env.genTime))]


/-- `image_path = job.input_image_path; if job.input_image_url: image_path =
self._download_from_gcs(...)` (Python truthiness on the URL). -/
def resolveImagePath (env : Env) (j : Job) : Option String :=
  if truthyStr j.input_image_url then env.download else j.input_image_path


/-- `active_jobs[job_id] = job` (dict key insertion). -/
def activeInsert (id : String) (a : List String) : List String :=
  if id ∈ a then a else id :: a


/-- `active_jobs.pop(job_id, None)`. -/
def activeRemove (id : String) : List String → List String
  | [] => []
  | x :: rest => if x = id then activeRemove id rest else x :: activeRemove id rest


/-- The first statements of `_process_job`: mark PROCESSING with a fresh
`updated_at` (this is the job as first persisted). -/
def markProcessing (env : Env) (j : Job) : Job :=
  { j with status := JobStatus.processing, updated_at := env.now1 }


/-- The job state after the COMPLETED branch of the body. -/
def completedJob (env : Env) (res : GenResult) (url : String) (j1 : Job) : Job :=
  { j1 with
    result_url := some url,
    status := JobStatus.completed,
    metrics := some (mkMetrics env res) }


/-- The job state after the generation-reported-failure branch of the body. -/
def genFailedJob (res : GenResult) (j1 : Job) : Job :=
  { j1 with
    status := JobStatus.failed,
    error_message := some (res.error.getD "Unknown error") }


/-- `if job.input_image_url and image_path and os.path.exists(image_path):
os.remove(image_path)` — whether the cleanup deletion runs. -/
def cleanupRan (env : Env) (j1 : Job) : Bool :=
  truthyStr j1.input_image_url && truthyStr (resolveImagePath env j1)
    && env.tempExists


/-- The remainder of the `try:`-block of `_process_job`, after the
PROCESSING save: returns the job state reached, whether the cleanup
`os.remove` of a downloaded input ran, and `Except.error e` when an
exception escapes the block (`raise`d locally or from a collaborator).
After the image-path check, `gen_params` is built with the dict-display
unpack `**job.parameters`, which raises `TypeError` when `parameters` is
`None` (the source never applies the `or {}` fix its own
`test_fix_verification.py` demonstrates); the exception text is modelled
without CPython's quoting. -/
def processTryCore (env : Env) (j1 : Job) : Job × Bool × Except String Unit :=
  match env.getClient with
  | .error e => (j1, false, .error e)
  | .ok _ =>
      if truthyStr (resolveImagePath env j1) then
        match j1.parameters with
        | none => (j1, false, .error "NoneType object is not a mapping")
        | some _ =>
            match env.generate with
            | .error e => (j1, false, .error e)
            | .ok res =>
                if res.status = "COMPLETED" then
                  if truthyStr res.output then
                    match env.upload with
                    | .error e => (j1, false, .error e)
                    | .ok url =>
                        (completedJob env res url j1, cleanupRan env j1, .ok ())
                  else (j1, false, .error "No video data in result")
                else (genFailedJob res j1, cleanupRan env j1, .ok ())
      else (j1, false, .error "No valid image source provided")


/-- The `except`/`finally` suffix of `_process_job`: an escaped exception is
recorded as FAILED with its text, then `updated_at` is refreshed. -/
def finallyJob (env : Env) (core : Job × Bool × Except String Unit) : Job :=
  match core.2.2 with
  | .ok _ => { core.1 with updated_at := env.now2 }
  | .error e =>
      { core.1 with
        status := JobStatus.failed,
        error_message := some e,
        updated_at := env.now2 }


/-- Everything observable after one `_process_job` run: the final job, the
table, the active-job shortcut keys, the (untouched) admission ledger,
whether the downloaded temp input was deleted, and the sequence of
`_save_job` calls made. -/
structure ProcResult where
  job : Job
  db : DB
  active : List String
  ledger : Ledger
  tempDeleted : Bool
  saves : List Job
deriving Repr, DecidableEq


/-- `JobQueue._process_job(job)`: mark PROCESSING and persist, register in
`active_jobs`, run the body with exceptions caught, then in `finally`
refresh `updated_at`, persist the final state, and pop the active entry.
No statement of the source touches the `ConcurrencyManager`, so the ledger
is passed through unchanged. -/
def processJob (env : Env) (db : DB) (active : List String) (led : Ledger)
    (j : Job) : ProcResult :=
  { job := finallyJob env (processTryCore env (markProcessing env j)),
    db := saveJob (saveJob db (markProcessing env j))
            (finallyJob env (processTryCore env (markProcessing env j))),
    active := activeRemove j.job_id (activeInsert j.job_id active),
    ledger := led,
    tempDeleted := (processTryCore env (markProcessing env j)).2.1,
    saves := [markProcessing env j,
              finallyJob env (processTryCore env (markProcessing env j))] }


/-- A generation result reporting success with binary output. -/
def genResOk : GenResult :=
  { status := "COMPLETED", output := some "vid", error := none, metrics := none }


/-- Environment of a fully successful run. -/
def envOk : Env :=
  { getClient := Except.ok (), download := none, generate := Except.ok genResOk,
    upload := Except.ok "https://bucket/jobs/v.mp4", genTime := 3,
    tempExists := false, now1 := 10, now2 := 11 }


/-- A job carrying a (truthy) remote input URL and a parameter map, so the
processing path reaches the generation call. -/
def jobWithUrl : Job :=
  { job_id := "j7", user_id := "u7", model := "wan2.1",
    status := JobStatus.queued, created_at := 1, updated_at := 1,
    input_image_url := some "gs://bucket/in.png", prompt := "p",
    parameters := some [("cfg", JVal.n 7)] }

/-- A queued job with a parameter map, so the dict unpack succeeds and a
successful environment drives it to COMPLETED. -/
def wJobGen : Job :=
  { wJobJW with parameters := some [("cfg", JVal.n 7)] }


/-- The environment of the C7 divergence: the download succeeded, the file
exists on disk, and the generation call raised. -/
def envBackendRaise : Env :=
  { getClient := Except.ok (), download := some "/tmp/dl.png",
    generate := Except.error "boom", upload := Except.ok "https://x/v.mp4",
    genTime := 3, tempExists := true, now1 := 10, now2 := 11 }


/-- A job carrying neither an input path nor an input URL. -/
def jobNoSource : Job :=
  { job_id := "jx", user_id := "ux", model := "wan2.1",
    status := JobStatus.queued, created_at := 1, updated_at := 1,
    prompt := "p" }


/-! ## Aggregate stats (`api_router.admin_stats`, `AuthService.get_queue_stats`)

`admin_stats` calls `queue.get_queue_stats()` and `AuthService`'s helper
calls `queue.get_all_jobs()`; neither method is defined anywhere on
`JobQueue`, so Python attribute lookup raises `AttributeError` and the
route's `except` answers with a 500 error.  Attribute lookup is modelled
against the transcribed list of methods the `JobQueue` class body defines. -/

/-- The method names the `JobQueue` class in `job_queue.py` defines. -/
def jobQueueMethods : List String :=
  ["__init__", "get_instance", "_init_db", "_save_job", "_load_job",
   "add_job", "get_job", "cancel_job", "_process_job", "_download_from_gcs",
   "_upload_video_to_gcs", "_worker_loop", "start_worker", "stop_worker",
   "get_user_jobs"]


inductive StatsResponse where
  | ok (body : List (String × Int)) (code : Nat)
  | err (code : Nat)
deriving Repr, DecidableEq


/-- `api_router.admin_stats`: reads the concurrency snapshot, then calls
`queue.get_queue_stats()`.  Attribute lookup on the `JobQueue` instance
raises `AttributeError` when the class defines no such name, and the
handler's `except` turns any exception into a 500 error.  The success branch
is unreachable (the method does not exist) and returns a dummy body. -/
def admin_stats (_db : DB) (_led : Ledger) : StatsResponse :=
  if "get_queue_stats" ∈ jobQueueMethods then .ok [] 200
  else .err 500


/-- `AuthService.get_queue_stats`: calls `queue.get_all_jobs()`, which
`JobQueue` does not define either, so it raises before computing anything.
The success branch is likewise unreachable. -/
def get_queue_stats (_db : DB) (_led : Ledger) :
    Except String (List (String × Int)) :=
  if "get_all_jobs" ∈ jobQueueMethods then .ok []
  else .error "AttributeError: JobQueue object has no attribute get_all_jobs"


theorem lkp_isSome_iff (u : String) (m : List (String × String)) :
    (lkp u m).isSome ↔ u ∈ keys m := by
  induction m with
  | nil => simp [lkp, keys]
  | cons p rest ih =>
      obtain ⟨k, v⟩ := p
      by_cases h : k = u
      · subst h; simp [lkp, keys]
      · simp [lkp, keys, h, ih, Ne.symm h]


theorem lkp_none_of_not_mem {u : String} {m : List (String × String)}
    (h : u ∉ keys m) : lkp u m = none := by
  cases hl : lkp u m with
  | none => rfl
  | some j =>
      exact absurd ((lkp_isSome_iff u m).1 (by simp [hl])) h


theorem mem_keys_of_lkp {u : String} {m : List (String × String)} {j : String}
    (h : lkp u m = some j) : u ∈ keys m :=
  (lkp_isSome_iff u m).1 (by simp [h])


theorem eraseUser_of_not_mem {u : String} {m : List (String × String)}
    (h : u ∉ keys m) : eraseUser u m = m := by
  induction m with
  | nil => rfl
  | cons p rest ih =>
      obtain ⟨k, v⟩ := p
      rw [show keys ((k, v) :: rest) = k :: keys rest from rfl, List.mem_cons] at h
      push_neg at h
      simp [eraseUser, Ne.symm h.1, ih h.2]


theorem length_eraseUser_nodup {u : String} {m : List (String × String)} {j : String}
    (hn : (keys m).Nodup) (h : lkp u m = some j) :
    (eraseUser u m).length + 1 = m.length := by
  induction m with
  | nil => simp [lkp] at h
  | cons p rest ih =>
      obtain ⟨k, v⟩ := p
      simp only [keys, List.map_cons, List.nodup_cons] at hn
      by_cases hk : k = u
      · subst hk
        have : eraseUser k rest = rest := eraseUser_of_not_mem hn.1
        simp [eraseUser, this]
      · simp only [lkp, if_neg hk] at h
        simp [eraseUser, hk, ih hn.2 h]


theorem keys_eraseUser_sub {u v : String} {m : List (String × String)}
    (h : v ∈ keys (eraseUser u m)) : v ∈ keys m := by
  induction m with
  | nil => simp [eraseUser, keys] at h
  | cons p rest ih =>
      obtain ⟨k, w⟩ := p
      by_cases hk : k = u
      · subst hk
        simp only [eraseUser, if_pos rfl] at h
        exact List.mem_cons_of_mem _ (ih h)
      · simp only [eraseUser, if_neg hk, keys, List.map_cons, List.mem_cons] at h ⊢
        rcases h with h | h
        · exact Or.inl h
        · exact Or.inr (ih h)


theorem keys_eraseUser_nodup {u : String} {m : List (String × String)}
    (hn : (keys m).Nodup) : (keys (eraseUser u m)).Nodup := by
  induction m with
  | nil => simp [eraseUser, keys]
  | cons p rest ih =>
      obtain ⟨k, v⟩ := p
      simp only [keys, List.map_cons, List.nodup_cons] at hn
      by_cases hk : k = u
      · subst hk; simpa [eraseUser] using ih hn.2
      · simp only [eraseUser, if_neg hk, keys, List.map_cons, List.nodup_cons]
        exact ⟨fun hc => hn.1 (keys_eraseUser_sub hc), ih hn.2⟩


theorem lkp_eraseUser_self (u : String) (m : List (String × String)) :
    lkp u (eraseUser u m) = none := by
  induction m with
  | nil => rfl
  | cons p rest ih =>
      obtain ⟨k, v⟩ := p
      by_cases hk : k = u
      · simpa [eraseUser, hk] using ih
      · simp [eraseUser, hk, lkp, ih]


theorem lkp_eraseUser_ne {u v : String} (hne : v ≠ u) (m : List (String × String)) :
    lkp v (eraseUser u m) = lkp v m := by
  induction m with
  | nil => rfl
  | cons p rest ih =>
      obtain ⟨k, w⟩ := p
      by_cases hk : k = u
      · subst hk
        simp [eraseUser, lkp, Ne.symm hne, ih]
      · by_cases hv : k = v
        · subst hv; simp [eraseUser, hk, lkp]
        · simp [eraseUser, hk, lkp, hv, ih]


theorem ledgerInv_applyStep {l : Ledger} (h : LedgerInv l) (s : Step) :
    LedgerInv (applyStep l s) := by
  obtain ⟨hnd, hcnt, hpos, hlim⟩ := h
  cases s with
  | acq u j =>
      by_cases h1 : (lkp u l.active_user_jobs).isSome
      · have : applyStep l (.acq u j) = l := by
          simp [applyStep, acquire, h1]
        rw [this]; exact ⟨hnd, hcnt, hpos, hlim⟩
      · by_cases h2 : l.global_limit ≤ l.active_count
        · have : applyStep l (.acq u j) = l := by
            simp [applyStep, acquire, h1, h2]
          rw [this]; exact ⟨hnd, hcnt, hpos, hlim⟩
        · have hstep : applyStep l (.acq u j) =
              { l with active_count := l.active_count + 1,
                       active_user_jobs := (u, j) :: l.active_user_jobs } := by
            simp [applyStep, acquire, h1, h2]
          rw [hstep]
          have hu : u ∉ keys l.active_user_jobs := by
            intro hc
            exact h1 ((lkp_isSome_iff u _).2 hc)
          refine ⟨?_, ?_, ?_, ?_⟩
          · rw [show keys ((u, j) :: l.active_user_jobs) =
                  u :: keys l.active_user_jobs from rfl]
            exact List.nodup_cons.2 ⟨hu, hnd⟩
          · show l.active_count + 1 = ((l.active_user_jobs.length + 1 : Nat) : Int)
            omega
          · show (0 : Int) ≤ l.active_count + 1
            omega
          · show l.active_count + 1 ≤ l.global_limit
            omega
  | rel u j =>
      by_cases hl : lkp u l.active_user_jobs = some j
      · have hne : l.active_user_jobs ≠ [] := by
          intro hc; rw [hc] at hl; simp [lkp] at hl
        have hlp : 0 < l.active_user_jobs.length := List.length_pos.2 hne
        have hcl : ¬ (l.active_count - 1 < 0) := by omega
        have hlen := length_eraseUser_nodup hnd hl
        have hstep : applyStep l (.rel u j) =
            { l with active_count := l.active_count - 1,
                     active_user_jobs := eraseUser u l.active_user_jobs } := by
          simp [applyStep, release, hl, hcl]
        rw [hstep]
        refine ⟨keys_eraseUser_nodup hnd, ?_, ?_, ?_⟩
        · show l.active_count - 1 = ((eraseUser u l.active_user_jobs).length : Int)
          omega
        · show (0 : Int) ≤ l.active_count - 1
          omega
        · show l.active_count - 1 ≤ l.global_limit
          omega
      · have : applyStep l (.rel u j) = l := by
          simp [applyStep, release, hl]
        rw [this]; exact ⟨hnd, hcnt, hpos, hlim⟩


theorem ledgerInv_runSteps {l : Ledger} (h : LedgerInv l) (steps : List Step) :
    LedgerInv (runSteps l steps) := by
  induction steps generalizing l with
  | nil => exact h
  | cons s rest ih => exact ih (ledgerInv_applyStep h s)


theorem ledgerInv_init : LedgerInv initLedger := by
  refine ⟨?_, ?_, ?_, ?_⟩ <;> simp [initLedger, keys]


/-- **C2.** From the empty ledger, after any sequence of acquire/release calls
the invariant holds: keys are unique (at most one entry per user), the active
count equals the mapping's size, and the count stays within `[0, globalLimit]`.
Since every instant of a run is the end of a prefix of the call sequence and
the theorem quantifies over all sequences, the invariant holds at all times. -/
theorem ledger_invariant_all_runs (steps : List Step) :
    LedgerInv (runSteps initLedger steps) :=
  ledgerInv_runSteps ledgerInv_init steps


/-- **C5.** On any ledger state satisfying the reachable-state invariant
(count = mapping size): a matching `release` removes exactly the user's entry
(leaving every other user's entry unchanged) and decrements the count by one;
a `release` with no entry for the user, or with a mismatched job id, leaves
the whole ledger unchanged.  `release` is a total function, so it never
raises. -/
theorem release_matched_and_stale (l : Ledger) (u j : String)
    (hInv : l.active_count = (l.active_user_jobs.length : Int)) :
    (lkp u l.active_user_jobs = some j →
       lkp u (release l u j).active_user_jobs = none ∧
       (∀ v, v ≠ u →
          lkp v (release l u j).active_user_jobs = lkp v l.active_user_jobs) ∧
       (release l u j).active_count = l.active_count - 1 ∧
       (release l u j).global_limit = l.global_limit) ∧
    (lkp u l.active_user_jobs = none → release l u j = l) ∧
    (∀ j', lkp u l.active_user_jobs = some j' → j' ≠ j → release l u j = l) := by
  refine ⟨?_, ?_, ?_⟩
  · intro hl
    have hge : (1 : Int) ≤ l.active_count := by
      have hne : l.active_user_jobs ≠ [] := by
        intro hc; rw [hc] at hl; simp [lkp] at hl
      have := List.length_pos.2 hne
      omega
    have hcl : ¬ (l.active_count - 1 < 0) := by omega
    refine ⟨?_, ?_, ?_, ?_⟩ <;>
      simp [release, hl, hcl, lkp_eraseUser_self]
    intro v hv
    exact lkp_eraseUser_ne hv l.active_user_jobs
  · intro hl
    simp [release, hl]
  · intro j' hl hne
    simp [release, hl, hne]


/-- Witness for C5 at concrete ledger states: a matched release empties the
slot and decrements, a release for an absent user is the identity, a
mismatched release is the identity. -/
theorem release_matched_and_stale_witness :
    lkp "u1" (release ⟨5, 1, [("u1", "j1")]⟩ "u1" "j1").active_user_jobs = none ∧
    (release ⟨5, 1, [("u1", "j1")]⟩ "u1" "j1").active_count = 0 ∧
    release ⟨5, 1, [("u2", "j2")]⟩ "u1" "j1" = ⟨5, 1, [("u2", "j2")]⟩ ∧
    release ⟨5, 1, [("u1", "j2")]⟩ "u1" "j1" = ⟨5, 1, [("u1", "j2")]⟩ := by
  have h1 := (release_matched_and_stale ⟨5, 1, [("u1", "j1")]⟩ "u1" "j1" (by decide)).1
    (by decide)
  have h2 := (release_matched_and_stale ⟨5, 1, [("u2", "j2")]⟩ "u1" "j1" (by decide)).2.1
    (by decide)
  have h3 := (release_matched_and_stale ⟨5, 1, [("u1", "j2")]⟩ "u1" "j1" (by decide)).2.2
    "j2" (by decide) (by decide)
  refine ⟨h1.1, ?_, h2, h3⟩
  rw [h1.2.2.1]
  decide


theorem mem_statusFilter {r : Row} {db : DB} :
    r ∈ statusFilter db ↔ r ∈ db ∧ r.status = "queued" := by
  induction db with
  | nil => simp [statusFilter]
  | cons x rest ih =>
      by_cases hx : x.status = "queued"
      · constructor
        · intro h
          rw [statusFilter, if_pos hx] at h
          rcases List.mem_cons.1 h with h | h
          · subst h; exact ⟨List.mem_cons_self _ _, hx⟩
          · exact ⟨List.mem_cons_of_mem _ (ih.1 h).1, (ih.1 h).2⟩
        · rintro ⟨hm, hs⟩
          rw [statusFilter, if_pos hx]
          rcases List.mem_cons.1 hm with h | h
          · subst h; exact List.mem_cons_self _ _
          · exact List.mem_cons_of_mem _ (ih.2 ⟨h, hs⟩)
      · constructor
        · intro h
          rw [statusFilter, if_neg hx] at h
          exact ⟨List.mem_cons_of_mem _ (ih.1 h).1, (ih.1 h).2⟩
        · rintro ⟨hm, hs⟩
          rw [statusFilter, if_neg hx]
          rcases List.mem_cons.1 hm with h | h
          · subst h; exact absurd hs hx
          · exact ih.2 ⟨h, hs⟩


theorem mem_insertByCreated {x r : Row} {l : List Row} :
    x ∈ insertByCreated r l ↔ x = r ∨ x ∈ l := by
  induction l with
  | nil => simp [insertByCreated]
  | cons y rest ih =>
      by_cases h : r.created_at ≤ y.created_at
      · simp [insertByCreated, h]
      · simp [insertByCreated, h, ih]
        tauto


theorem mem_sortByCreated {x : Row} {l : List Row} :
    x ∈ sortByCreated l ↔ x ∈ l := by
  induction l with
  | nil => simp [sortByCreated]
  | cons y rest ih =>
      simp [sortByCreated, mem_insertByCreated, ih]


theorem pairwise_insertByCreated {r : Row} {l : List Row}
    (h : l.Pairwise (fun a b => a.created_at ≤ b.created_at)) :
    (insertByCreated r l).Pairwise (fun a b => a.created_at ≤ b.created_at) := by
  induction l with
  | nil => simp [insertByCreated]
  | cons y rest ih =>
      rw [List.pairwise_cons] at h
      by_cases hle : r.created_at ≤ y.created_at
      · rw [insertByCreated, if_pos hle]
        refine List.pairwise_cons.2 ⟨?_, List.pairwise_cons.2 ⟨h.1, h.2⟩⟩
        intro z hz
        rcases List.mem_cons.1 hz with hz | hz
        · subst hz; exact hle
        · exact le_trans hle (h.1 z hz)
      · rw [insertByCreated, if_neg hle]
        refine List.pairwise_cons.2 ⟨?_, ih h.2⟩
        intro z hz
        rcases mem_insertByCreated.1 hz with hz | hz
        · subst hz; omega
        · exact h.1 z hz


theorem pairwise_sortByCreated (l : List Row) :
    (sortByCreated l).Pairwise (fun a b => a.created_at ≤ b.created_at) := by
  induction l with
  | nil => simp [sortByCreated]
  | cons y rest ih => exact pairwise_insertByCreated ih


theorem mem_dbErase {r : Row} {id : String} {db : DB} (h : r ∈ dbErase id db) :
    r ∈ db ∧ r.job_id ≠ id := by
  induction db with
  | nil => simp [dbErase] at h
  | cons x rest ih =>
      by_cases hx : x.job_id = id
      · rw [dbErase, if_pos hx] at h
        exact ⟨List.mem_cons_of_mem _ (ih h).1, (ih h).2⟩
      · rw [dbErase, if_neg hx] at h
        rcases List.mem_cons.1 h with h | h
        · subst h; exact ⟨List.mem_cons_self _ _, hx⟩
        · exact ⟨List.mem_cons_of_mem _ (ih h).1, (ih h).2⟩


theorem dbFind_erase_append (id : String) (db : DB) (r : Row) (h : r.job_id = id) :
    dbFind (dbErase id db ++ [r]) id = some r := by
  induction db with
  | nil => simp [dbFind, h]
  | cons x rest ih =>
      by_cases hx : x.job_id = id
      · rw [dbErase, if_pos hx]; exact ih
      · rw [dbErase, if_neg hx]
        show dbFind (x :: (dbErase id rest ++ [r])) id = some r
        rw [dbFind, if_neg hx]
        exact ih


theorem dbFind_job_id {db : DB} {id : String} {r : Row}
    (h : dbFind db id = some r) : r.job_id = id := by
  induction db with
  | nil => simp [dbFind] at h
  | cons x rest ih =>
      by_cases hx : x.job_id = id
      · rw [dbFind, if_pos hx] at h
        cases h; exact hx
      · rw [dbFind, if_neg hx] at h
        exact ih h


theorem decodeRow_job_id {r : Row} {j : Job} (h : decodeRow r = some j) :
    j.job_id = r.job_id := by
  unfold decodeRow at h
  cases hp : JobStatus.parse r.status with
  | none => rw [hp] at h; simp at h
  | some st =>
      rw [hp] at h
      simp only [Option.map_some'] at h
      cases h; rfl


theorem loadJob_job_id {db : DB} {id : String} {j : Job}
    (h : loadJob db id = some j) : j.job_id = id := by
  unfold loadJob at h
  cases hf : dbFind db id with
  | none => rw [hf] at h; simp at h
  | some r =>
      rw [hf] at h
      have h' : decodeRow r = some j := h
      rw [decodeRow_job_id h']
      exact dbFind_job_id hf


theorem parse_value (st : JobStatus) : JobStatus.parse st.value = some st := by
  cases st <;> rfl


theorem cell_roundtrip {m : Option JMap} (h : m ≠ some []) :
    (if truthyMap m then m else none) = m := by
  match m with
  | none => rfl
  | some [] => exact absurd rfl h
  | some (x :: xs) => rfl


theorem decode_encode (j : Job) (hp : j.parameters ≠ some [])
    (hm : j.metrics ≠ some []) : decodeRow (encodeJob j) = some j := by
  obtain ⟨jid, uid, mdl, st, ca, ua, url, pth, pr, np, pars, ru, em, mt⟩ := j
  simp only [encodeJob, decodeRow, parse_value, Option.map_some']
  rw [cell_roundtrip hp, cell_roundtrip hm]


theorem loadJob_saveJob_self (db : DB) (j : Job)
    (hp : j.parameters ≠ some []) (hm : j.metrics ≠ some []) :
    loadJob (saveJob db j) j.job_id = some j := by
  have h1 : dbFind (saveJob db j) j.job_id = some (encodeJob j) := by
    show dbFind (dbErase j.job_id db ++ [encodeJob j]) j.job_id = some (encodeJob j)
    exact dbFind_erase_append _ db _ rfl
  unfold loadJob
  rw [h1]
  show decodeRow (encodeJob j) = some j
  exact decode_encode j hp hm


theorem mem_saveJob {r : Row} {db : DB} {j : Job} (h : r ∈ saveJob db j) :
    (r ∈ db ∧ r.job_id ≠ j.job_id) ∨ r = encodeJob j := by
  rcases List.mem_append.1 h with hm | hm
  · exact Or.inl (mem_dbErase hm)
  · exact Or.inr (by simpa using hm)


/-- **C3.** The worker-loop selection query returns only rows whose status is
`queued`, in ascending creation-time order, and after a successful cancel of a
job that job's row is never returned by the query. -/
theorem listOldestQueued_spec (db : DB) (limit : Nat) (id : String) (now : Nat) :
    (∀ r ∈ listOldestQueued db limit, r.status = "queued") ∧
    (listOldestQueued db limit).Pairwise (fun a b => a.created_at ≤ b.created_at) ∧
    ((cancel_job db id now).2 = true →
      ∀ r ∈ listOldestQueued (cancel_job db id now).1 limit, r.job_id ≠ id) := by
  refine ⟨?_, ?_, ?_⟩
  · intro r hr
    exact (mem_statusFilter.1 (mem_sortByCreated.1 (List.mem_of_mem_take hr))).2
  · exact List.Pairwise.sublist (List.take_sublist _ _) (pairwise_sortByCreated _)
  · intro hc r hr
    cases hload : loadJob db id with
    | none =>
        simp [cancel_job, hload] at hc
    | some j =>
        by_cases hq : j.status = JobStatus.queued
        · have hdb : (cancel_job db id now).1 =
              saveJob db { j with status := JobStatus.cancelled, updated_at := now } := by
            simp only [cancel_job, hload, if_pos hq]
          rw [hdb] at hr
          have hmem := mem_statusFilter.1 (mem_sortByCreated.1 (List.mem_of_mem_take hr))
          have hid0 : j.job_id = id := loadJob_job_id hload
          rcases mem_saveJob hmem.1 with ⟨_, hne⟩ | hEq
          · have hne' : r.job_id ≠ j.job_id := hne
            rw [hid0] at hne'
            exact hne'
          · have hst : r.status = "cancelled" := by rw [hEq]; rfl
            rw [hst] at hmem
            exact absurd hmem.2 (by decide)
        · simp [cancel_job, hload, hq] at hc


/-- Witness for C3 on a concrete table: the selected head row is queued and,
after cancelling job `jw3`, the query never returns its row. -/
theorem listOldestQueued_spec_witness :
    (encodeJob wJobW3).status = "queued" ∧ (encodeJob wJobQ1).job_id ≠ "jw3" := by
  have h := listOldestQueued_spec [encodeJob wJobQ1, encodeJob wJobW3] 5 "jw3" 9
  exact ⟨h.1 _ (by decide), h.2.2 (by decide) _ (by decide)⟩


/-- **C4.** `cancel_job` returns `true` and moves the job to CANCELLED
(fresh `updated_at`, persisted) exactly when the job exists and is QUEUED;
when the job is missing or in any other status it returns `false` and the
table — hence the stored job record — is unchanged.  The QUEUED case is
stated for jobs whose serialised-map cells round-trip (`parameters`/`metrics`
not the empty map — the only cells `_save_job` itself can produce). -/
theorem cancel_job_spec (db : DB) (id : String) (now : Nat) :
    (∀ j, loadJob db id = some j → j.status = JobStatus.queued →
       j.parameters ≠ some [] → j.metrics ≠ some [] →
       (cancel_job db id now).2 = true ∧
       loadJob (cancel_job db id now).1 id =
         some { j with status := JobStatus.cancelled, updated_at := now }) ∧
    (loadJob db id = none → cancel_job db id now = (db, false)) ∧
    (∀ j, loadJob db id = some j → j.status ≠ JobStatus.queued →
       cancel_job db id now = (db, false)) := by
  refine ⟨?_, ?_, ?_⟩
  · intro j hload hq hp hm
    have hdb : cancel_job db id now =
        (saveJob db { j with status := JobStatus.cancelled, updated_at := now }, true) := by
      simp only [cancel_job, hload, if_pos hq]
    rw [hdb]
    have hid0 : j.job_id = id := loadJob_job_id hload
    refine ⟨rfl, ?_⟩
    show loadJob (saveJob db { j with status := JobStatus.cancelled, updated_at := now }) id
        = some { j with status := JobStatus.cancelled, updated_at := now }
    rw [← hid0]
    exact loadJob_saveJob_self db _ hp hm
  · intro hload
    simp only [cancel_job, hload]
  · intro j hload hq
    simp only [cancel_job, hload, if_neg hq]


/-- Witness for C4: cancelling a concrete queued job returns `true` and the
reloaded record is CANCELLED with the new `updated_at`. -/
theorem cancel_job_spec_witness :
    (cancel_job [encodeJob wJobJW] "jw" 7).2 = true ∧
    loadJob (cancel_job [encodeJob wJobJW] "jw" 7).1 "jw" =
      some { wJobJW with status := JobStatus.cancelled, updated_at := 7 } :=
  (cancel_job_spec [encodeJob wJobJW] "jw" 7).1 wJobJW
    (by decide) (by decide) (by decide) (by decide)


/-- **C6 (counterexample).** A job with an empty `parameters` map does not
round-trip through `_save_job` / `_load_job`: the empty dict is falsy, so the
cell is stored as `NULL` and reloads as `None`. -/
theorem save_load_roundtrip_cex :
    loadJob (saveJob [] jobEmptyParams) jobEmptyParams.job_id ≠ some jobEmptyParams := by
  decide


/-- **C6 (amended).** A job written via `_save_job` and reloaded via
`_load_job` reproduces every field, provided each of the `parameters` and
`metrics` maps is either absent or non-empty; an empty map reloads as `None`. -/
theorem save_load_roundtrip (db : DB) (j : Job)
    (hp : j.parameters ≠ some []) (hm : j.metrics ≠ some []) :
    loadJob (saveJob db j) j.job_id = some j :=
  loadJob_saveJob_self db j hp hm


/-- Witness for amended C6 at a concrete job carrying non-empty parameter and
metrics maps. -/
theorem save_load_roundtrip_witness :
    loadJob (saveJob [] wJobMaps) wJobMaps.job_id = some wJobMaps :=
  save_load_roundtrip [] wJobMaps (by decide) (by decide)


/-- **C1 (code divergence).** For every environment, ledger and job,
`_process_job`'s first persisted write marks the job PROCESSING, and the
admission ledger is returned untouched: no `acquire` call precedes (or ever
accompanies) the PROCESSING transition, so a job is PROCESSING while its
user holds no admission slot whenever the incoming ledger has none. -/
theorem process_job_no_admission (env : Env) (db : DB) (active : List String)
    (led : Ledger) (j : Job) :
    (processJob env db active led j).saves.head? =
      some { j with status := JobStatus.processing, updated_at := env.now1 } ∧
    (processJob env db active led j).ledger = led :=
  ⟨rfl, rfl⟩


/-- Case analysis of the `try:`-body: either an exception escapes and the job
mutations so far left the PROCESSING job intact, or the body completes with
the job either COMPLETED carrying a result URL (generation reported
COMPLETED with truthy output and the upload succeeded) or FAILED carrying an
error message. -/
theorem processTryCore_spec (env : Env) (j1 : Job) :
    (∃ e, (processTryCore env j1).2.2 = .error e ∧ (processTryCore env j1).1 = j1) ∨
    ((processTryCore env j1).2.2 = .ok () ∧
      (((processTryCore env j1).1.status = JobStatus.completed ∧
        (processTryCore env j1).1.result_url.isSome = true ∧
        (∃ res url, env.generate = .ok res ∧ res.status = "COMPLETED" ∧
           truthyStr res.output = true ∧ env.upload = .ok url)) ∨
       ((processTryCore env j1).1.status = JobStatus.failed ∧
        (processTryCore env j1).1.error_message.isSome = true))) := by
  unfold processTryCore
  split
  next e _ => exact Or.inl ⟨e, rfl, rfl⟩
  next _ _ =>
    split
    · split
      next => exact Or.inl ⟨"NoneType object is not a mapping", rfl, rfl⟩
      next =>
        split
        next e _ => exact Or.inl ⟨e, rfl, rfl⟩
        next res hgen =>
          split
          next hst =>
            split
            next hout =>
              split
              next e _ => exact Or.inl ⟨e, rfl, rfl⟩
              next url hup =>
                exact Or.inr ⟨rfl, Or.inl ⟨rfl, rfl, res, url, hgen, hst, hout, hup⟩⟩
            next => exact Or.inl ⟨"No video data in result", rfl, rfl⟩
          next => exact Or.inr ⟨rfl, Or.inr ⟨rfl, rfl⟩⟩
    · exact Or.inl ⟨"No valid image source provided", rfl, rfl⟩


/-- **C9.** Every `_process_job` run ends terminal: the status is COMPLETED
or FAILED; COMPLETED implies a non-null result URL and that generation
reported COMPLETED with truthy output and the upload succeeded; FAILED
implies a non-null error message. -/
theorem process_job_terminal (env : Env) (db : DB) (active : List String)
    (led : Ledger) (j : Job) :
    ((processJob env db active led j).job.status = JobStatus.completed ∨
     (processJob env db active led j).job.status = JobStatus.failed) ∧
    ((processJob env db active led j).job.status = JobStatus.completed →
       (processJob env db active led j).job.result_url.isSome = true) ∧
    ((processJob env db active led j).job.status = JobStatus.failed →
       (processJob env db active led j).job.error_message.isSome = true) ∧
    ((processJob env db active led j).job.status = JobStatus.completed →
       ∃ res url, env.generate = .ok res ∧ res.status = "COMPLETED" ∧
         truthyStr res.output = true ∧ env.upload = .ok url) := by
  have hcore := processTryCore_spec env (markProcessing env j)
  have hjob : (processJob env db active led j).job =
      finallyJob env (processTryCore env (markProcessing env j)) := rfl
  rw [hjob]
  rcases hcore with ⟨e, herr, hkeep⟩ | ⟨hok, hterm⟩
  · have hfin : finallyJob env (processTryCore env (markProcessing env j)) =
        { (processTryCore env (markProcessing env j)).1 with
          status := JobStatus.failed, error_message := some e,
          updated_at := env.now2 } := by
      unfold finallyJob
      rw [herr]
    rw [hfin]
    refine ⟨Or.inr rfl, ?_, ?_, ?_⟩
    · intro hc; exact absurd hc (by simp)
    · intro _; rfl
    · intro hc; exact absurd hc (by simp)
  · have hfin : finallyJob env (processTryCore env (markProcessing env j)) =
        { (processTryCore env (markProcessing env j)).1 with
          updated_at := env.now2 } := by
      unfold finallyJob
      rw [hok]
    rw [hfin]
    rcases hterm with ⟨hst, hurl, hgen⟩ | ⟨hst, hmsg⟩
    · refine ⟨Or.inl ?_, ?_, ?_, ?_⟩
      · show (processTryCore env (markProcessing env j)).1.status = _
        exact hst
      · intro _
        show (processTryCore env (markProcessing env j)).1.result_url.isSome = true
        exact hurl
      · intro hc
        have hc' : (processTryCore env (markProcessing env j)).1.status =
            JobStatus.failed := hc
        rw [hst] at hc'
        exact absurd hc' (by simp)
      · intro _; exact hgen
    · refine ⟨Or.inr ?_, ?_, ?_, ?_⟩
      · show (processTryCore env (markProcessing env j)).1.status = _
        exact hst
      · intro hc
        have hc' : (processTryCore env (markProcessing env j)).1.status =
            JobStatus.completed := hc
        rw [hst] at hc'
        exact absurd hc' (by simp)
      · intro _
        show (processTryCore env (markProcessing env j)).1.error_message.isSome = true
        exact hmsg
      · intro hc
        have hc' : (processTryCore env (markProcessing env j)).1.status =
            JobStatus.completed := hc
        rw [hst] at hc'
        exact absurd hc' (by simp)


/-- Witness for C9: a concrete successful run (the job carries a parameter
map, so the dict unpack succeeds) ends COMPLETED with a result URL recorded,
and a run whose reloaded job has `parameters = None` hits the `TypeError`
from the dict unpack and ends FAILED with a non-null error message. -/
theorem process_job_terminal_witness :
    (processJob envOk [] [] initLedger wJobGen).job.status = JobStatus.completed ∧
    (processJob envOk [] [] initLedger wJobGen).job.result_url.isSome = true ∧
    (processJob envOk [] [] initLedger wJobJW).job.status = JobStatus.failed ∧
    (processJob envOk [] [] initLedger wJobJW).job.error_message.isSome = true := by
  have h := process_job_terminal envOk [] [] initLedger wJobGen
  have h2 := process_job_terminal envOk [] [] initLedger wJobJW
  exact ⟨by decide, h.2.1 (by decide), by decide, h2.2.2.1 (by decide)⟩


/-- **C7 (code divergence).** On an exception path with a downloaded input
file present, the guaranteed (`finally`) step does refresh `updated_at`,
persist the final FAILED state and pop the active-job entry — but the
downloaded temp file is NOT deleted (the `os.remove` sits inside the `try`)
and no admission slot is released (the ledger is untouched; none was ever
acquired). -/
theorem process_job_cleanup_gap :
    (processJob envBackendRaise [] [] initLedger jobWithUrl).tempDeleted = false ∧
    (processJob envBackendRaise [] [] initLedger jobWithUrl).ledger = initLedger ∧
    (processJob envBackendRaise [] [] initLedger jobWithUrl).job.status =
      JobStatus.failed ∧
    (processJob envBackendRaise [] [] initLedger jobWithUrl).job.updated_at = 11 ∧
    (processJob envBackendRaise [] [] initLedger jobWithUrl).active = [] ∧
    loadJob (processJob envBackendRaise [] [] initLedger jobWithUrl).db "j7" =
      some (processJob envBackendRaise [] [] initLedger jobWithUrl).job := by
  decide


theorem resolveImagePath_markProcessing (env : Env) (j : Job) :
    resolveImagePath env (markProcessing env j) = resolveImagePath env j := rfl


/-- **C10.** When the client factory succeeds but the job resolves no truthy
local image path (no input path and no URL, or a URL whose download returned
nothing), `_process_job` catches the locally raised exception and ends the
job FAILED with error message "No valid image source provided"; the function
returns normally, so the worker loop carries on. -/
theorem process_job_no_image_source (env : Env) (db : DB) (active : List String)
    (led : Ledger) (j : Job)
    (hc : env.getClient = Except.ok ())
    (hi : truthyStr (resolveImagePath env j) = false) :
    (processJob env db active led j).job.status = JobStatus.failed ∧
    (processJob env db active led j).job.error_message =
      some "No valid image source provided" := by
  have hi' : truthyStr (resolveImagePath env (markProcessing env j)) = false := by
    rw [resolveImagePath_markProcessing]; exact hi
  have hcore : processTryCore env (markProcessing env j) =
      (markProcessing env j, false, Except.error "No valid image source provided") := by
    unfold processTryCore
    split
    next e heq =>
      rw [hc] at heq
      exact Except.noConfusion heq
    next _ _ =>
      rw [if_neg (by rw [hi']; simp)]
  have hjob : (processJob env db active led j).job =
      finallyJob env (processTryCore env (markProcessing env j)) := rfl
  rw [hjob, hcore]
  exact ⟨rfl, rfl⟩


/-- Witness for C10: a job with neither input source ends FAILED with the
fixed message. -/
theorem process_job_no_image_source_witness :
    (processJob envOk [] [] initLedger jobNoSource).job.status = JobStatus.failed ∧
    (processJob envOk [] [] initLedger jobNoSource).job.error_message =
      some "No valid image source provided" :=
  process_job_no_image_source envOk [] [] initLedger jobNoSource
    (by decide) (by decide)


/-- **C8 (code divergence).** The stats endpoint can never return the merged
counts: `JobQueue` defines neither `get_queue_stats` nor `get_all_jobs`, so
for every table and ledger the attribute lookup raises and the endpoint
answers 500 instead of the merged stats. -/
theorem admin_stats_always_error (db : DB) (led : Ledger) :
    "get_queue_stats" ∉ jobQueueMethods ∧
    "get_all_jobs" ∉ jobQueueMethods ∧
    admin_stats db led = StatsResponse.err 500 ∧
    get_queue_stats db led =
      Except.error "AttributeError: JobQueue object has no attribute get_all_jobs" := by
  refine ⟨by decide, by decide, ?_, ?_⟩
  · unfold admin_stats
    rw [if_neg (by decide)]
  · unfold get_queue_stats
    rw [if_neg (by decide)]

end Wan22
